import Mathlib

/-!
Verification model of the streaming delivery engine in
src/python/packages/ai/teams/streaming/streaming_response.py (class StreamingResponse).

The Python class is shallowly embedded as a pure state machine:

* StreamState mirrors the instance attributes of StreamingResponse (the TurnContext is
  not modelled; the transport it provides is an oracle, see Transport below).
* The queue of zero-argument activity factories is modelled by Job: informative updates
  enqueue an eagerly built Activity (the Python lambda captures a finished activity),
  while queue_next_chunk enqueues the lazy _format_next_chunk factory, which reads the
  state at dequeue time.
* asyncio scheduling is modelled by interleaved trace steps (PStep): producer calls are
  synchronous, and drainOne performs one iteration of the _drain_queue loop (pop,
  materialize, send).  The transport is an oracle mapping the index of the send attempt
  to its outcome.
* Raising ApplicationError is modelled by Except.error; a raising call leaves the state
  unchanged, matching the source where the raise precedes every mutation.
-/

inductive StreamType where
  | informative
  | streaming
  | final
  deriving DecidableEq, Repr

inductive ActivityType where
  | typing
  | message
  deriving DecidableEq, Repr

inductive FeedbackLoopType where
  | default
  | custom
  deriving DecidableEq, Repr

/-- Opaque stand-in for botbuilder Attachment; the engine never inspects attachments. -/
structure Attachment where
  payload : String
  deriving DecidableEq, Repr

/-- Opaque stand-in for SensitivityUsageInfo; the engine never inspects it. -/
structure SensitivityUsageInfo where
  label : String
  deriving DecidableEq, Repr

/-- Citation input (teams.ai.prompts.message.Citation): a title that may be absent or
empty (Python falsiness) and source content. -/
structure Citation where
  title : Option String
  content : String
  deriving DecidableEq, Repr

structure Appearance where
  name : String
  abstract : String
  deriving DecidableEq, Repr

structure ClientCitation where
  position : Nat
  appearance : Appearance
  deriving DecidableEq, Repr

/-- StreamingChannelData: the channel_data dictionary is modelled structurally;
from_dict/to_dict round trips in the source become the identity. -/
structure StreamingChannelData where
  stream_type : StreamType
  stream_sequence : Option Nat := none
  stream_id : Option String := none
  feedback_loop_enabled : Option Bool := none
  feedback_loop_type : Option FeedbackLoopType := none
  deriving DecidableEq, Repr

structure StreamingEntity where
  stream_id : Option String
  stream_sequence : Option Nat
  stream_type : StreamType
  deriving DecidableEq, Repr

structure AIEntity where
  additional_type : List String
  citation : List ClientCitation
  usage_info : Option SensitivityUsageInfo := none
  deriving DecidableEq, Repr

inductive Entity where
  | stream (e : StreamingEntity)
  | ai (e : AIEntity)
  deriving DecidableEq, Repr

structure Activity where
  type : ActivityType
  text : String
  attachments : List Attachment := []
  channel_data : StreamingChannelData
  entities : List Entity := []
  deriving DecidableEq, Repr

/-- A queued job: the Python queue holds zero-argument factories.  Informative updates
capture a finished activity eagerly; queue_next_chunk enqueues the lazy
_format_next_chunk closure, which reads the shared state at dequeue time. -/
inductive Job where
  | eager (a : Activity)
  | formatNextChunk
  deriving DecidableEq, Repr

/-- Outcome of one transport send (TurnContext.send_activity): err models a raised
transport exception; ok carries the optional ResourceResponse id. -/
inductive Outcome where
  | ok (resp : Option String)
  | err
  deriving DecidableEq, Repr

/-- Transport oracle: the outcome of the n-th send attempt of the exchange. -/
def Transport : Type := Nat → Outcome

inductive StreamErr where
  | streamAlreadyEnded
  deriving DecidableEq, Repr

/-- The instance attributes of StreamingResponse (class defaults in the source; the
sharing defect of the class-level defaults is modelled separately, see PyTwoInstances). -/
structure StreamState where
  nextSequence : Nat := 1
  streamId : String := ""
  message : String := ""
  attachments : List Attachment := []
  ended : Bool := false
  citations : List ClientCitation := []
  sensitivityLabel : Option SensitivityUsageInfo := none
  enableFeedbackLoop : Bool := false
  feedbackLoopType : Option FeedbackLoopType := none
  enableGeneratedByAiLabel : Bool := false
  queue : List Job := []
  chunkQueued : Bool := false
  deriving DecidableEq, Repr

def initStream : StreamState := {}

/-- Modelled from the spec: teams.utils.snippet is not under src/; per the spec it is a
pure truncation helper deriving a bounded-length excerpt from source content. -/
def snippet (content : String) (maxLen : Nat) : String :=
  String.mk (content.data.take maxLen)

def takeDigits : List Char → List Char × List Char
  | [] => ([], [])
  | c :: cs =>
    if c.isDigit then
      let p := takeDigits cs
      (c :: p.1, p.2)
    else ([], c :: cs)

def fmtCitFuel : Nat → List Char → List Char
  | 0, cs => cs
  | _ + 1, [] => []
  | fuel + 1, '[' :: 'd' :: 'o' :: 'c' :: rest =>
    match takeDigits rest with
    | (d :: ds, ']' :: after) => '[' :: (d :: ds) ++ ']' :: fmtCitFuel fuel after
    | _ => '[' :: fmtCitFuel fuel ('d' :: 'o' :: 'c' :: rest)
  | fuel + 1, c :: rest => c :: fmtCitFuel fuel rest

/-- Modelled from the spec: teams.utils.citations.format_citations_response is not under
src/; per the spec (and the source comment at the call site) it is a pure text transform
rewriting inline citation placeholders [docN] into the numeric form [N]. -/
def format_citations_response (text : String) : String :=
  String.mk (fmtCitFuel text.data.length text.data)

def listContains (pat : List Char) : List Char → Bool
  | [] => decide (pat = [])
  | c :: rest => pat.isPrefixOf (c :: rest) || listContains pat rest

/-- Reference marker of a citation at a given 1-based position, as produced by
format_citations_response. -/
def citationMarker (pos : Nat) : String := "[" ++ toString pos ++ "]"

/-- Whether the accumulated text references the citation at the given position. -/
def citationReferenced (text : String) (pos : Nat) : Bool :=
  listContains (citationMarker pos).data text.data

/-- Modelled from the spec: teams.utils.citations.get_used_citations is not under src/;
per the spec it is the pure filter computing the subset of citations actually referenced
in the text by scanning for inline reference markers. -/
def get_used_citations (text : String) (citations : List ClientCitation) :
    List ClientCitation :=
  citations.filter (fun c => citationReferenced text c.position)

def set_attachments (s : StreamState) (attachments : List Attachment) : StreamState :=
  {s with attachments := attachments}

def set_feedback_loop (s : StreamState) (enable : Bool) : StreamState :=
  {s with enableFeedbackLoop := enable}

def set_feedback_loop_type (s : StreamState) (t : FeedbackLoopType) : StreamState :=
  {s with feedbackLoopType := some t}

def set_sensitivity_label (s : StreamState) (l : SensitivityUsageInfo) : StreamState :=
  {s with sensitivityLabel := some l}

def set_generated_by_ai_label (s : StreamState) (enable : Bool) : StreamState :=
  {s with enableGeneratedByAiLabel := enable}

def updates_sent (s : StreamState) : Nat := s.nextSequence - 1

/-- Python truthiness of citation.title: None or the empty string fall back to the
default document name. -/
def pyTitleOr (t : Option String) (d : String) : String :=
  match t with
  | some v => if v = "" then d else v
  | none => d

def mkClientCitations (currPos : Nat) : List Citation → List ClientCitation
  | [] => []
  | c :: rest =>
    { position := currPos + 1,
      appearance :=
        { name := pyTitleOr c.title ("Document " ++ toString (currPos + 1)),
          abstract := snippet c.content 477 } } :: mkClientCitations (currPos + 1) rest

def set_citations (s : StreamState) (citations : List Citation) : StreamState :=
  if citations.length > 0 then
    {s with citations := s.citations ++ mkClientCitations s.citations.length citations}
  else s

/-- queue_activity: appends the factory; starting the drain task is modelled by the
scheduler steps of the trace machine (PStep.drainOne). -/
def queue_activity (s : StreamState) (j : Job) : StreamState :=
  {s with queue := s.queue ++ [j]}

def queue_informative_update (s : StreamState) (text : String) :
    Except StreamErr StreamState :=
  if s.ended then Except.error StreamErr.streamAlreadyEnded
  else
    let activity : Activity :=
      { type := ActivityType.typing, text := text,
        channel_data :=
          { stream_type := StreamType.informative,
            stream_sequence := some s.nextSequence } }
    let s := queue_activity s (Job.eager activity)
    Except.ok {s with nextSequence := s.nextSequence + 1}

def queue_next_chunk (s : StreamState) : StreamState :=
  if s.chunkQueued then s
  else queue_activity {s with chunkQueued := true} Job.formatNextChunk

def queue_text_chunk (s : StreamState) (text : String)
    (citations : Option (List Citation) := none) : Except StreamErr StreamState :=
  -- the citations parameter is unused in the source (pylint: disable=unused-argument)
  if s.ended then Except.error StreamErr.streamAlreadyEnded
  else
    let s := {s with message := format_citations_response (s.message ++ text)}
    Except.ok (queue_next_chunk s)

/-- end_stream: the synchronous part (raise check, set ended, queue the final chunk).
The await of wait_for_queue is modelled by subsequent drainOne steps of the trace. -/
def end_stream (s : StreamState) : Except StreamErr StreamState :=
  if s.ended then Except.error StreamErr.streamAlreadyEnded
  else Except.ok (queue_next_chunk {s with ended := true})

/-- The lazy _format_next_chunk factory, run at dequeue time. -/
def format_next_chunk (s : StreamState) : StreamState × Activity :=
  let s := {s with chunkQueued := false}
  if s.ended then
    (s, { type := ActivityType.message, text := s.message,
          attachments := s.attachments,
          channel_data := { stream_type := StreamType.final } })
  else
    ({s with nextSequence := s.nextSequence + 1},
     { type := ActivityType.typing, text := s.message,
       channel_data :=
         { stream_type := StreamType.streaming,
           stream_sequence := some s.nextSequence } })

def materialize (s : StreamState) : Job → StreamState × Activity
  | Job.eager a => (s, a)
  | Job.formatNextChunk => format_next_chunk s

/-- send_activity, first block: stamp the recorded stream id into channel_data. -/
def stampStreamId (s : StreamState) (a : Activity) : Activity :=
  if s.streamId ≠ "" then
    {a with channel_data := {a.channel_data with stream_id := some s.streamId}}
  else a

/-- send_activity, second block: entities is overwritten with the StreamingEntity built
from the (possibly stamped) channel_data. -/
def attachStreamEntity (a : Activity) : Activity :=
  {a with entities :=
    [Entity.stream
      { stream_id := a.channel_data.stream_id,
        stream_sequence := a.channel_data.stream_sequence,
        stream_type := a.channel_data.stream_type }]}

/-- send_activity, third block: on non-final sends with registered citations, append an
AIEntity carrying the used-citation subset. -/
def attachUsedCitations (s : StreamState) (a : Activity) : Activity :=
  if s.citations ≠ [] ∧ s.ended = false then
    {a with entities := a.entities ++
      [Entity.ai
        { additional_type := [],
          citation := get_used_citations s.message s.citations }]}
  else a

/-- send_activity, fourth block: once ended, decorate channel_data with the feedback
flags and, when enabled, append the AI-generated-content label entity. -/
def decorateFinal (s : StreamState) (a : Activity) : Activity :=
  if s.ended then
    let cd := a.channel_data
    let cd :=
      if s.enableFeedbackLoop then
        {cd with feedback_loop_enabled := some s.enableFeedbackLoop}
      else cd
    let cd :=
      if s.enableFeedbackLoop = false ∧ s.feedbackLoopType.isSome then
        {cd with feedback_loop_type := s.feedbackLoopType}
      else cd
    let a := {a with channel_data := cd}
    if s.enableGeneratedByAiLabel then
      {a with entities := a.entities ++
        [Entity.ai
          { additional_type := ["AIGeneratedContent"],
            citation := s.citations,
            usage_info := s.sensitivityLabel }]}
    else a
  else a

/-- send_activity, final block: record the assigned stream id from the first truthy
response while no id is recorded yet. -/
def newStreamId (s : StreamState) (out : Outcome) : String :=
  match out with
  | Outcome.ok (some rid) => if s.streamId = "" then rid else s.streamId
  | _ => s.streamId

/-- send_activity: produces the updated state and the wire activity handed to the
transport. -/
def send_activity (s : StreamState) (a : Activity) (out : Outcome) :
    StreamState × Activity :=
  ({s with streamId := newStreamId s out},
   decorateFinal s (attachUsedCitations s (attachStreamEntity (stampStreamId s a))))

/-- One trace event: a producer call, a setter, or one iteration of the drain loop. -/
inductive PStep where
  | informative (text : String)
  | chunk (text : String) (citations : Option (List Citation))
  | endStream
  | setCitations (cs : List Citation)
  | setAttachments (l : List Attachment)
  | setFeedbackLoop (b : Bool)
  | setFeedbackLoopType (t : FeedbackLoopType)
  | setSensitivityLabel (l : SensitivityUsageInfo)
  | setGeneratedByAiLabel (b : Bool)
  | drainOne

structure RunState where
  st : StreamState
  sent : List (Activity × Outcome)
  deriving DecidableEq, Repr

def initRun : RunState := { st := initStream, sent := [] }

def step (trans : Transport) (rs : RunState) : PStep → RunState
  | PStep.informative t =>
    match queue_informative_update rs.st t with
    | Except.ok s => {rs with st := s}
    | Except.error _ => rs
  | PStep.chunk t c =>
    match queue_text_chunk rs.st t c with
    | Except.ok s => {rs with st := s}
    | Except.error _ => rs
  | PStep.endStream =>
    match end_stream rs.st with
    | Except.ok s => {rs with st := s}
    | Except.error _ => rs
  | PStep.setCitations cs => {rs with st := set_citations rs.st cs}
  | PStep.setAttachments l => {rs with st := set_attachments rs.st l}
  | PStep.setFeedbackLoop b => {rs with st := set_feedback_loop rs.st b}
  | PStep.setFeedbackLoopType t => {rs with st := set_feedback_loop_type rs.st t}
  | PStep.setSensitivityLabel l => {rs with st := set_sensitivity_label rs.st l}
  | PStep.setGeneratedByAiLabel b => {rs with st := set_generated_by_ai_label rs.st b}
  | PStep.drainOne =>
    match rs.st.queue with
    | [] => rs
    | j :: rest =>
      let p := materialize {rs.st with queue := rest} j
      let out := trans rs.sent.length
      let q := send_activity p.1 p.2 out
      { st := q.1, sent := rs.sent ++ [(q.2, out)] }

def run (trans : Transport) (steps : List PStep) : RunState :=
  steps.foldl (step trans) initRun

/-- One full run of the _drain_queue coroutine over the given backlog: pop, materialize,
send, and stop at the first transport exception (the try/finally only clears the task
handle; unprocessed jobs stay in the queue). -/
def drain_run (trans : Transport) : Nat → List Job → StreamState →
    StreamState × List (Activity × Outcome)
  | _, [], s => (s, [])
  | k, j :: rest, s =>
    let p := materialize s j
    let out := trans k
    let q := send_activity p.1 p.2 out
    match out with
    | Outcome.err => ({q.1 with queue := rest}, [(q.2, out)])
    | Outcome.ok r =>
      let w := drain_run trans (k + 1) rest q.1
      (w.1, (q.2, Outcome.ok r) :: w.2)

/-- drain_queue: one drain run started on the current backlog of the state. -/
def drain_queue (trans : Transport) (k : Nat) (s : StreamState) :
    StreamState × List (Activity × Outcome) :=
  drain_run trans k s.queue {s with queue := []}

def isChunkJob : Job → Bool
  | Job.eager _ => false
  | Job.formatNextChunk => true

/-- Number of pending _format_next_chunk jobs in the backlog. -/
def countChunk (q : List Job) : Nat := q.countP isChunkJob

def isFinalSend (p : Activity × Outcome) : Bool :=
  decide (p.1.channel_data.stream_type = StreamType.final)

/-- Number of terminal activities handed to the transport. -/
def countFinals (sent : List (Activity × Outcome)) : Nat := sent.countP isFinalSend

/-- Sequence numbers carried by the activities handed to the transport, in send order. -/
def sentSeqs (sent : List (Activity × Outcome)) : List Nat :=
  sent.filterMap (fun p => p.1.channel_data.stream_sequence)

def jobSeq : Job → Option Nat
  | Job.eager a => a.channel_data.stream_sequence
  | Job.formatNextChunk => none

/-- Sequence numbers already assigned to queued (not yet sent) jobs. -/
def queueSeqs (q : List Job) : List Nat := q.filterMap jobSeq

/-- All sequence numbers assigned so far, sent ones first, then queued ones. -/
def assignedSeqs (rs : RunState) : List Nat := sentSeqs rs.sent ++ queueSeqs rs.st.queue

def isAILabel : Entity → Bool
  | Entity.ai x => decide (x.additional_type = ["AIGeneratedContent"])
  | Entity.stream _ => false

/-- An activity carrying none of the terminal decorations (feedback flags, AI label). -/
def undecorated (a : Activity) : Prop :=
  a.channel_data.feedback_loop_enabled = none ∧
  a.channel_data.feedback_loop_type = none ∧
  ∀ e ∈ a.entities, isAILabel e = false

/-- The eagerly captured activity of queue_informative_update. -/
def infoActivity (s : StreamState) (t : String) : Activity :=
  { type := ActivityType.typing, text := t,
    channel_data :=
      { stream_type := StreamType.informative,
        stream_sequence := some s.nextSequence } }

/-- The engine invariant, preserved by every trace step. -/
structure EngineInv (rs : RunState) : Prop where
  nseq_pos : 1 ≤ rs.st.nextSequence
  chunk_count : countChunk rs.st.queue = (if rs.st.chunkQueued then 1 else 0)
  q_eager : ∀ a, Job.eager a ∈ rs.st.queue →
    a.channel_data.stream_type = StreamType.informative ∧
    a.channel_data.feedback_loop_enabled = none ∧
    a.channel_data.feedback_loop_type = none
  finals_not_ended : rs.st.ended = false → countFinals rs.sent = 0
  finals_ended : rs.st.ended = true →
    countFinals rs.sent + countChunk rs.st.queue = 1
  seqs : List.Perm (assignedSeqs rs) (List.range' 1 (rs.st.nextSequence - 1))
  sent_excl : ∀ p ∈ rs.sent,
    ¬(p.1.channel_data.feedback_loop_enabled.isSome
      ∧ p.1.channel_data.feedback_loop_type.isSome)
  sent_undec : rs.st.ended = false → ∀ p ∈ rs.sent, undecorated p.1
  sent_final_noseq : ∀ p ∈ rs.sent,
    p.1.channel_data.stream_type = StreamType.final →
    p.1.channel_data.stream_sequence = none
  sent_final_msg : ∀ p ∈ rs.sent,
    p.1.channel_data.stream_type = StreamType.final → p.1.type = ActivityType.message

/-- A transport that always succeeds and assigns the same stream id. -/
def transOk : Transport := fun _ => Outcome.ok (some "stream-id-1")

/-- One queue_text_chunk call as a total state transformer (a raising call, which
mutates nothing, is the identity). -/
def chunkStep (s : StreamState) (t : String) : StreamState :=
  match queue_text_chunk s t none with
  | Except.ok s2 => s2
  | Except.error _ => s

/-- A whole burst of queue_text_chunk calls. -/
def applyChunks (s : StreamState) (ts : List String) : StreamState :=
  ts.foldl chunkStep s

/-- The AIEntity payloads attached to an activity, in order. -/
def aiEntities (a : Activity) : List AIEntity :=
  a.entities.filterMap (fun e =>
    match e with
    | Entity.ai x => some x
    | Entity.stream _ => none)

/-- Traces used to instantiate the trace-machine theorems on concrete inputs. -/
def endedRun : RunState := run transOk [PStep.endStream]

def c2steps : List PStep :=
  [PStep.chunk "a" none, PStep.informative "b", PStep.drainOne, PStep.drainOne]

def c7steps : List PStep :=
  [PStep.setFeedbackLoop true, PStep.informative "x", PStep.endStream, PStep.drainOne]

def w5pre : List PStep := [PStep.informative "x", PStep.drainOne]

def w5more : List PStep := [PStep.informative "y", PStep.drainOne]

def w7pre : List PStep := [PStep.informative "x", PStep.drainOne]

def w7post : List PStep := [PStep.endStream, PStep.drainOne]

/-- A transport whose second send (index 1) raises and all others succeed. -/
def transErrAt1 : Transport := fun n => if n = 1 then Outcome.err else Outcome.ok none

def jobA : Job := Job.eager (infoActivity initStream "one")

def w8state : StreamState :=
  {initStream with queue := [jobA, Job.formatNextChunk, jobA]}

def cit1 : ClientCitation := { position := 1, appearance := { name := "a", abstract := "x" } }

def cit2 : ClientCitation := { position := 2, appearance := { name := "b", abstract := "y" } }

def cit3 : ClientCitation := { position := 3, appearance := { name := "c", abstract := "z" } }

def s6a : StreamState :=
  {initStream with message := "see [2]", citations := [cit1, cit2, cit3]}

def s6b : StreamState :=
  {s6a with
    ended := true, enableGeneratedByAiLabel := true,
    sensitivityLabel := some { label := "conf" }}

def act6 : Activity :=
  { type := ActivityType.typing, text := "see [2]",
    channel_data :=
      { stream_type := StreamType.streaming, stream_sequence := some 1 } }

/-- Pythonic attribute semantics for two StreamingResponse instances and the
class-level default of the _queue field: __init__ assigns only _context, so both
instances initially resolve _queue to the single class-level list object, and
queue_activity's self._queue.append mutates the object found by attribute lookup in
place, never creating an instance attribute. -/
structure PyTwoInstances where
  classQueueDefault : List Job
  inst1Queue : Option (List Job)
  inst2Queue : Option (List Job)
  deriving DecidableEq, Repr

/-- Attribute lookup of self._queue on instance 1: the instance attribute if present,
else the class attribute. -/
def readQueue1 (w : PyTwoInstances) : List Job := w.inst1Queue.getD w.classQueueDefault

/-- Attribute lookup of self._queue on instance 2. -/
def readQueue2 (w : PyTwoInstances) : List Job := w.inst2Queue.getD w.classQueueDefault

/-- self._queue.append(factory) on instance 1 (the body of queue_activity): in-place
mutation of whichever list object the attribute lookup found. -/
def appendQueue1 (w : PyTwoInstances) (j : Job) : PyTwoInstances :=
  match w.inst1Queue with
  | some q => {w with inst1Queue := some (q ++ [j])}
  | none => {w with classQueueDefault := w.classQueueDefault ++ [j]}

/-- Two freshly constructed instances: __init__ sets only _context, so neither owns an
instance-level _queue and both share the class default. -/
def freshTwoInstances : PyTwoInstances :=
  { classQueueDefault := [], inst1Queue := none, inst2Queue := none }

theorem stampStreamId_stream_type (s : StreamState) (a : Activity) :
    (stampStreamId s a).channel_data.stream_type = a.channel_data.stream_type := by
  unfold stampStreamId; split <;> rfl

theorem stampStreamId_stream_sequence (s : StreamState) (a : Activity) :
    (stampStreamId s a).channel_data.stream_sequence = a.channel_data.stream_sequence := by
  unfold stampStreamId; split <;> rfl

theorem stampStreamId_fb_enabled (s : StreamState) (a : Activity) :
    (stampStreamId s a).channel_data.feedback_loop_enabled
      = a.channel_data.feedback_loop_enabled := by
  unfold stampStreamId; split <;> rfl

theorem stampStreamId_fb_type (s : StreamState) (a : Activity) :
    (stampStreamId s a).channel_data.feedback_loop_type
      = a.channel_data.feedback_loop_type := by
  unfold stampStreamId; split <;> rfl

theorem stampStreamId_type (s : StreamState) (a : Activity) :
    (stampStreamId s a).type = a.type := by
  unfold stampStreamId; split <;> rfl

theorem stampStreamId_stamped (s : StreamState) (a : Activity) (h : s.streamId ≠ "") :
    (stampStreamId s a).channel_data.stream_id = some s.streamId := by
  unfold stampStreamId; rw [if_pos h]

theorem attachStreamEntity_cd (a : Activity) :
    (attachStreamEntity a).channel_data = a.channel_data := rfl

theorem attachStreamEntity_type (a : Activity) :
    (attachStreamEntity a).type = a.type := rfl

theorem attachStreamEntity_entities (a : Activity) :
    (attachStreamEntity a).entities =
      [Entity.stream
        { stream_id := a.channel_data.stream_id,
          stream_sequence := a.channel_data.stream_sequence,
          stream_type := a.channel_data.stream_type }] := rfl

theorem attachUsedCitations_cd (s : StreamState) (a : Activity) :
    (attachUsedCitations s a).channel_data = a.channel_data := by
  unfold attachUsedCitations; split <;> rfl

theorem attachUsedCitations_type (s : StreamState) (a : Activity) :
    (attachUsedCitations s a).type = a.type := by
  unfold attachUsedCitations; split <;> rfl

theorem attachUsedCitations_entities (s : StreamState) (a : Activity) :
    (attachUsedCitations s a).entities =
      if s.citations ≠ [] ∧ s.ended = false then
        a.entities ++
          [Entity.ai
            { additional_type := [],
              citation := get_used_citations s.message s.citations }]
      else a.entities := by
  unfold attachUsedCitations; split <;> simp_all

theorem decorateFinal_stream_type (s : StreamState) (a : Activity) :
    (decorateFinal s a).channel_data.stream_type = a.channel_data.stream_type := by
  simp only [decorateFinal]; split_ifs <;> rfl

theorem decorateFinal_stream_sequence (s : StreamState) (a : Activity) :
    (decorateFinal s a).channel_data.stream_sequence
      = a.channel_data.stream_sequence := by
  simp only [decorateFinal]; split_ifs <;> rfl

theorem decorateFinal_stream_id (s : StreamState) (a : Activity) :
    (decorateFinal s a).channel_data.stream_id = a.channel_data.stream_id := by
  simp only [decorateFinal]; split_ifs <;> rfl

theorem decorateFinal_type (s : StreamState) (a : Activity) :
    (decorateFinal s a).type = a.type := by
  simp only [decorateFinal]; split_ifs <;> rfl

theorem decorateFinal_not_ended (s : StreamState) (a : Activity) (h : s.ended = false) :
    decorateFinal s a = a := by
  simp only [decorateFinal, h]; rfl

theorem decorateFinal_excl (s : StreamState) (a : Activity)
    (h1 : a.channel_data.feedback_loop_enabled = none)
    (h2 : a.channel_data.feedback_loop_type = none) :
    ¬((decorateFinal s a).channel_data.feedback_loop_enabled.isSome
      ∧ (decorateFinal s a).channel_data.feedback_loop_type.isSome) := by
  simp only [decorateFinal]
  split_ifs <;> simp_all

theorem decorateFinal_entities (s : StreamState) (a : Activity) :
    (decorateFinal s a).entities =
      if s.ended = true ∧ s.enableGeneratedByAiLabel = true then
        a.entities ++
          [Entity.ai
            { additional_type := ["AIGeneratedContent"],
              citation := s.citations,
              usage_info := s.sensitivityLabel }]
      else a.entities := by
  simp only [decorateFinal]
  split_ifs <;> simp_all

theorem send_activity_snd (s : StreamState) (a : Activity) (out : Outcome) :
    (send_activity s a out).2
      = decorateFinal s (attachUsedCitations s (attachStreamEntity (stampStreamId s a)))
    := rfl

theorem wire_stream_type (s : StreamState) (a : Activity) (out : Outcome) :
    (send_activity s a out).2.channel_data.stream_type = a.channel_data.stream_type := by
  rw [send_activity_snd, decorateFinal_stream_type, attachUsedCitations_cd,
    attachStreamEntity_cd, stampStreamId_stream_type]

theorem wire_stream_sequence (s : StreamState) (a : Activity) (out : Outcome) :
    (send_activity s a out).2.channel_data.stream_sequence
      = a.channel_data.stream_sequence := by
  rw [send_activity_snd, decorateFinal_stream_sequence, attachUsedCitations_cd,
    attachStreamEntity_cd, stampStreamId_stream_sequence]

theorem wire_type (s : StreamState) (a : Activity) (out : Outcome) :
    (send_activity s a out).2.type = a.type := by
  rw [send_activity_snd, decorateFinal_type, attachUsedCitations_type,
    attachStreamEntity_type, stampStreamId_type]

theorem wire_stamped (s : StreamState) (a : Activity) (out : Outcome)
    (h : s.streamId ≠ "") :
    (send_activity s a out).2.channel_data.stream_id = some s.streamId := by
  rw [send_activity_snd, decorateFinal_stream_id, attachUsedCitations_cd,
    attachStreamEntity_cd, stampStreamId_stamped s a h]

theorem wire_fb_enabled_not_ended (s : StreamState) (a : Activity) (out : Outcome)
    (h : s.ended = false) :
    (send_activity s a out).2.channel_data.feedback_loop_enabled
      = a.channel_data.feedback_loop_enabled := by
  rw [send_activity_snd, decorateFinal_not_ended _ _ h, attachUsedCitations_cd,
    attachStreamEntity_cd, stampStreamId_fb_enabled]

theorem wire_fb_type_not_ended (s : StreamState) (a : Activity) (out : Outcome)
    (h : s.ended = false) :
    (send_activity s a out).2.channel_data.feedback_loop_type
      = a.channel_data.feedback_loop_type := by
  rw [send_activity_snd, decorateFinal_not_ended _ _ h, attachUsedCitations_cd,
    attachStreamEntity_cd, stampStreamId_fb_type]

theorem wire_no_ailabel_not_ended (s : StreamState) (a : Activity) (out : Outcome)
    (h : s.ended = false) :
    ∀ e ∈ (send_activity s a out).2.entities, isAILabel e = false := by
  rw [send_activity_snd, decorateFinal_not_ended _ _ h, attachUsedCitations_entities]
  split_ifs <;> intro e he <;>
    simp only [attachStreamEntity_entities, List.mem_append, List.mem_singleton] at he
  · rcases he with he | he
    · subst he; rfl
    · subst he; rfl
  · subst he; rfl

theorem wire_excl (s : StreamState) (a : Activity) (out : Outcome)
    (h1 : a.channel_data.feedback_loop_enabled = none)
    (h2 : a.channel_data.feedback_loop_type = none) :
    ¬((send_activity s a out).2.channel_data.feedback_loop_enabled.isSome
      ∧ (send_activity s a out).2.channel_data.feedback_loop_type.isSome) := by
  rw [send_activity_snd]
  apply decorateFinal_excl
  · rw [attachUsedCitations_cd, attachStreamEntity_cd, stampStreamId_fb_enabled]; exact h1
  · rw [attachUsedCitations_cd, attachStreamEntity_cd, stampStreamId_fb_type]; exact h2

theorem send_activity_fst (s : StreamState) (a : Activity) (out : Outcome) :
    (send_activity s a out).1 = {s with streamId := newStreamId s out} := rfl

theorem step_informative_ended (trans : Transport) (rs : RunState) (t : String)
    (he : rs.st.ended = true) : step trans rs (PStep.informative t) = rs := by
  simp [step, queue_informative_update, he]

theorem step_informative (trans : Transport) (rs : RunState) (t : String)
    (he : rs.st.ended = false) :
    step trans rs (PStep.informative t)
      = {rs with st := {rs.st with
          queue := rs.st.queue ++ [Job.eager (infoActivity rs.st t)],
          nextSequence := rs.st.nextSequence + 1}} := by
  simp [step, queue_informative_update, queue_activity, he, infoActivity]

theorem step_chunk_ended (trans : Transport) (rs : RunState) (t : String)
    (c : Option (List Citation)) (he : rs.st.ended = true) :
    step trans rs (PStep.chunk t c) = rs := by
  simp [step, queue_text_chunk, he]

theorem step_chunk_pending (trans : Transport) (rs : RunState) (t : String)
    (c : Option (List Citation)) (he : rs.st.ended = false)
    (hc : rs.st.chunkQueued = true) :
    step trans rs (PStep.chunk t c)
      = {rs with st := {rs.st with
          message := format_citations_response (rs.st.message ++ t)}} := by
  simp [step, queue_text_chunk, queue_next_chunk, he, hc]

theorem step_chunk_fresh (trans : Transport) (rs : RunState) (t : String)
    (c : Option (List Citation)) (he : rs.st.ended = false)
    (hc : rs.st.chunkQueued = false) :
    step trans rs (PStep.chunk t c)
      = {rs with st := {rs.st with
          message := format_citations_response (rs.st.message ++ t),
          chunkQueued := true,
          queue := rs.st.queue ++ [Job.formatNextChunk]}} := by
  simp [step, queue_text_chunk, queue_next_chunk, queue_activity, he, hc]

theorem step_end_ended (trans : Transport) (rs : RunState)
    (he : rs.st.ended = true) : step trans rs PStep.endStream = rs := by
  simp [step, end_stream, he]

theorem step_end_pending (trans : Transport) (rs : RunState)
    (he : rs.st.ended = false) (hc : rs.st.chunkQueued = true) :
    step trans rs PStep.endStream = {rs with st := {rs.st with ended := true}} := by
  simp [step, end_stream, queue_next_chunk, he, hc]

theorem step_end_fresh (trans : Transport) (rs : RunState)
    (he : rs.st.ended = false) (hc : rs.st.chunkQueued = false) :
    step trans rs PStep.endStream
      = {rs with st := {rs.st with
          ended := true, chunkQueued := true,
          queue := rs.st.queue ++ [Job.formatNextChunk]}} := by
  simp [step, end_stream, queue_next_chunk, queue_activity, he, hc]

theorem step_drain_nil (trans : Transport) (rs : RunState)
    (hq : rs.st.queue = []) : step trans rs PStep.drainOne = rs := by
  simp [step, hq]

theorem step_drain_eager (trans : Transport) (rs : RunState) (a : Activity)
    (rest : List Job) (hq : rs.st.queue = Job.eager a :: rest) :
    step trans rs PStep.drainOne
      = { st := (send_activity {rs.st with queue := rest} a (trans rs.sent.length)).1,
          sent := rs.sent ++
            [((send_activity {rs.st with queue := rest} a (trans rs.sent.length)).2,
              trans rs.sent.length)] } := by
  simp [step, hq, materialize]

theorem step_drain_chunk (trans : Transport) (rs : RunState)
    (rest : List Job) (hq : rs.st.queue = Job.formatNextChunk :: rest) :
    step trans rs PStep.drainOne
      = { st := (send_activity (format_next_chunk {rs.st with queue := rest}).1
                  (format_next_chunk {rs.st with queue := rest}).2
                  (trans rs.sent.length)).1,
          sent := rs.sent ++
            [((send_activity (format_next_chunk {rs.st with queue := rest}).1
                  (format_next_chunk {rs.st with queue := rest}).2
                  (trans rs.sent.length)).2,
              trans rs.sent.length)] } := by
  simp [step, hq, materialize]

theorem format_next_chunk_ended (s : StreamState) (h : s.ended = true) :
    format_next_chunk s
      = ({s with chunkQueued := false},
         { type := ActivityType.message, text := s.message,
           attachments := s.attachments,
           channel_data := { stream_type := StreamType.final } }) := by
  simp [format_next_chunk, h]

theorem format_next_chunk_not_ended (s : StreamState) (h : s.ended = false) :
    format_next_chunk s
      = ({s with chunkQueued := false, nextSequence := s.nextSequence + 1},
         { type := ActivityType.typing, text := s.message,
           channel_data :=
             { stream_type := StreamType.streaming,
               stream_sequence := some s.nextSequence } }) := by
  simp [format_next_chunk, h]

theorem countChunk_append (q r : List Job) :
    countChunk (q ++ r) = countChunk q + countChunk r := by
  simp [countChunk, List.countP_append]

theorem countFinals_append (l : List (Activity × Outcome)) (p : Activity × Outcome) :
    countFinals (l ++ [p]) = countFinals l + (if isFinalSend p = true then 1 else 0) := by
  simp [countFinals, List.countP_append, List.countP_cons]

theorem engineInv_of_frame {rs rt : RunState} (h : EngineInv rs)
    (hq : rt.st.queue = rs.st.queue) (he : rt.st.ended = rs.st.ended)
    (hn : rt.st.nextSequence = rs.st.nextSequence)
    (hc : rt.st.chunkQueued = rs.st.chunkQueued) (hs : rt.sent = rs.sent) : EngineInv rt := by
  constructor
  · rw [hn]; exact h.nseq_pos
  · rw [hq, hc]; exact h.chunk_count
  · intro a ha; rw [hq] at ha; exact h.q_eager a ha
  · intro hend; rw [he] at hend; rw [hs]; exact h.finals_not_ended hend
  · intro hend; rw [he] at hend; rw [hs, hq]; exact h.finals_ended hend
  · show List.Perm (sentSeqs rt.sent ++ queueSeqs rt.st.queue) _
    rw [hs, hq, hn]; exact h.seqs
  · intro p hp; rw [hs] at hp; exact h.sent_excl p hp
  · intro hend p hp; rw [he] at hend; rw [hs] at hp; exact h.sent_undec hend p hp
  · intro p hp; rw [hs] at hp; exact h.sent_final_noseq p hp
  · intro p hp; rw [hs] at hp; exact h.sent_final_msg p hp

theorem engineInv_init : EngineInv initRun := by
  constructor <;>
    simp [initRun, initStream, countChunk, countFinals, assignedSeqs, sentSeqs, queueSeqs]

theorem countChunk_cons_eager (a : Activity) (q : List Job) :
    countChunk (Job.eager a :: q) = countChunk q := by
  simp [countChunk, List.countP_cons, isChunkJob]

theorem countChunk_cons_chunk (q : List Job) :
    countChunk (Job.formatNextChunk :: q) = countChunk q + 1 := by
  simp [countChunk, List.countP_cons, isChunkJob]

theorem sentSeqs_append_one (l : List (Activity × Outcome)) (p : Activity × Outcome) :
    sentSeqs (l ++ [p]) = sentSeqs l ++ (p.1.channel_data.stream_sequence).toList := by
  cases hs : p.1.channel_data.stream_sequence <;>
    simp [sentSeqs, List.filterMap_append, List.filterMap_cons, hs]

theorem queueSeqs_cons (j : Job) (q : List Job) :
    queueSeqs (j :: q) = (jobSeq j).toList ++ queueSeqs q := by
  cases hs : jobSeq j <;> simp [queueSeqs, List.filterMap_cons, hs]

theorem queueSeqs_append_one (q : List Job) (j : Job) :
    queueSeqs (q ++ [j]) = queueSeqs q ++ (jobSeq j).toList := by
  cases hs : jobSeq j <;> simp [queueSeqs, List.filterMap_append, List.filterMap_cons, hs]

theorem perm_snoc_end {α : Type} (S Q R : List α) (n : α)
    (hp : List.Perm (S ++ Q) R) :
    List.Perm (S ++ (Q ++ [n])) (R ++ [n]) := by
  rw [← List.append_assoc]
  exact hp.append_right [n]

theorem perm_snoc_shift {α : Type} (S Q R : List α) (n : α)
    (hp : List.Perm (S ++ Q) R) :
    List.Perm ((S ++ [n]) ++ Q) (R ++ [n]) := by
  rw [List.append_assoc, List.singleton_append]
  refine List.Perm.trans ?_ ((List.perm_append_singleton n R).symm)
  exact List.Perm.trans List.perm_middle (hp.cons n)

theorem set_citations_frame (s : StreamState) (cs : List Citation) :
    (set_citations s cs).queue = s.queue ∧ (set_citations s cs).ended = s.ended ∧
    (set_citations s cs).nextSequence = s.nextSequence ∧
    (set_citations s cs).chunkQueued = s.chunkQueued := by
  unfold set_citations; split <;> exact ⟨rfl, rfl, rfl, rfl⟩

theorem engineInv_step (trans : Transport) (rs : RunState) (e : PStep)
    (h : EngineInv rs) : EngineInv (step trans rs e) := by
  cases e with
  | informative t =>
    cases he : rs.st.ended with
    | true => rw [step_informative_ended trans rs t he]; exact h
    | false =>
      rw [step_informative trans rs t he]
      constructor
      · show 1 ≤ rs.st.nextSequence + 1
        omega
      · show countChunk (rs.st.queue ++ [Job.eager (infoActivity rs.st t)])
            = if rs.st.chunkQueued then 1 else 0
        rw [countChunk_append]
        simpa [countChunk, List.countP_cons, isChunkJob] using h.chunk_count
      · show ∀ a, Job.eager a ∈ rs.st.queue ++ [Job.eager (infoActivity rs.st t)] → _
        intro a ha
        rcases List.mem_append.mp ha with h1 | h1
        · exact h.q_eager a h1
        · have : a = infoActivity rs.st t := by simpa using h1
          subst this
          exact ⟨rfl, rfl, rfl⟩
      · intro _; exact h.finals_not_ended he
      · intro hend
        exact absurd hend (by simp [he])
      · have hp := h.seqs
        dsimp only [assignedSeqs] at hp ⊢
        have h1 : rs.st.nextSequence + 1 - 1 = (rs.st.nextSequence - 1) + 1 := by
          have := h.nseq_pos; omega
        rw [h1, List.range'_concat]
        have h2 : 1 + 1 * (rs.st.nextSequence - 1) = rs.st.nextSequence := by
          have := h.nseq_pos; omega
        rw [h2, queueSeqs_append_one]
        exact perm_snoc_end _ _ _ _ hp
      · exact h.sent_excl
      · intro _; exact h.sent_undec he
      · exact h.sent_final_noseq
      · exact h.sent_final_msg
  | chunk t c =>
    cases he : rs.st.ended with
    | true => rw [step_chunk_ended trans rs t c he]; exact h
    | false =>
      cases hc : rs.st.chunkQueued with
      | true =>
        rw [step_chunk_pending trans rs t c he hc]
        exact engineInv_of_frame h rfl rfl rfl rfl rfl
      | false =>
        rw [step_chunk_fresh trans rs t c he hc]
        constructor
        · exact h.nseq_pos
        · show countChunk (rs.st.queue ++ [Job.formatNextChunk]) = 1
          have hcc : countChunk rs.st.queue = 0 := by simpa [hc] using h.chunk_count
          rw [countChunk_append, hcc]
          simp [countChunk, List.countP_cons, isChunkJob]
        · show ∀ a, Job.eager a ∈ rs.st.queue ++ [Job.formatNextChunk] → _
          intro a ha
          rcases List.mem_append.mp ha with h1 | h1
          · exact h.q_eager a h1
          · simp at h1
        · intro _; exact h.finals_not_ended he
        · intro hend
          exact absurd hend (by simp [he])
        · have hp := h.seqs
          dsimp only [assignedSeqs] at hp ⊢
          rw [queueSeqs_append_one]
          simpa [jobSeq] using hp
        · exact h.sent_excl
        · intro _; exact h.sent_undec he
        · exact h.sent_final_noseq
        · exact h.sent_final_msg
  | endStream =>
    cases he : rs.st.ended with
    | true => rw [step_end_ended trans rs he]; exact h
    | false =>
      cases hc : rs.st.chunkQueued with
      | true =>
        rw [step_end_pending trans rs he hc]
        constructor
        · exact h.nseq_pos
        · exact h.chunk_count
        · exact h.q_eager
        · intro hend
          exact absurd hend (by simp)
        · intro _
          have f0 := h.finals_not_ended he
          have c1 : countChunk rs.st.queue = 1 := by simpa [hc] using h.chunk_count
          show countFinals rs.sent + countChunk rs.st.queue = 1
          omega
        · exact h.seqs
        · exact h.sent_excl
        · intro hend
          exact absurd hend (by simp)
        · exact h.sent_final_noseq
        · exact h.sent_final_msg
      | false =>
        rw [step_end_fresh trans rs he hc]
        constructor
        · exact h.nseq_pos
        · show countChunk (rs.st.queue ++ [Job.formatNextChunk]) = 1
          have hcc : countChunk rs.st.queue = 0 := by simpa [hc] using h.chunk_count
          rw [countChunk_append, hcc]
          simp [countChunk, List.countP_cons, isChunkJob]
        · show ∀ a, Job.eager a ∈ rs.st.queue ++ [Job.formatNextChunk] → _
          intro a ha
          rcases List.mem_append.mp ha with h1 | h1
          · exact h.q_eager a h1
          · simp at h1
        · intro hend
          exact absurd hend (by simp)
        · intro _
          have f0 := h.finals_not_ended he
          have hcc : countChunk rs.st.queue = 0 := by simpa [hc] using h.chunk_count
          show countFinals rs.sent + countChunk (rs.st.queue ++ [Job.formatNextChunk]) = 1
          rw [countChunk_append, hcc, f0]
          simp [countChunk, List.countP_cons, isChunkJob]
        · have hp := h.seqs
          dsimp only [assignedSeqs] at hp ⊢
          rw [queueSeqs_append_one]
          simpa [jobSeq] using hp
        · exact h.sent_excl
        · intro hend
          exact absurd hend (by simp)
        · exact h.sent_final_noseq
        · exact h.sent_final_msg
  | setCitations cs =>
    have hf := set_citations_frame rs.st cs
    exact engineInv_of_frame h hf.1 hf.2.1 hf.2.2.1 hf.2.2.2 rfl
  | setAttachments l => exact engineInv_of_frame h rfl rfl rfl rfl rfl
  | setFeedbackLoop b => exact engineInv_of_frame h rfl rfl rfl rfl rfl
  | setFeedbackLoopType ty => exact engineInv_of_frame h rfl rfl rfl rfl rfl
  | setSensitivityLabel l => exact engineInv_of_frame h rfl rfl rfl rfl rfl
  | setGeneratedByAiLabel b => exact engineInv_of_frame h rfl rfl rfl rfl rfl
  | drainOne =>
    cases hq : rs.st.queue with
    | nil => rw [step_drain_nil trans rs hq]; exact h
    | cons j rest =>
      cases j with
      | eager a =>
        have ha := h.q_eager a (by rw [hq]; exact List.mem_cons_self _ _)
        rw [step_drain_eager trans rs a rest hq, send_activity_fst]
        have hnf : isFinalSend
            ((send_activity {rs.st with queue := rest} a (trans rs.sent.length)).2,
              trans rs.sent.length) = false := by
          simp [isFinalSend, wire_stream_type, ha.1]
        constructor
        · exact h.nseq_pos
        · show countChunk rest = if rs.st.chunkQueued then 1 else 0
          have hc2 := h.chunk_count
          rw [hq, countChunk_cons_eager] at hc2
          exact hc2
        · intro b hb
          exact h.q_eager b (by rw [hq]; exact List.mem_cons_of_mem _ hb)
        · intro hend
          have hend2 : rs.st.ended = false := hend
          show countFinals (rs.sent ++
            [((send_activity {rs.st with queue := rest} a (trans rs.sent.length)).2,
              trans rs.sent.length)]) = 0
          rw [countFinals_append, hnf]
          simp [h.finals_not_ended hend2]
        · intro hend
          have hend2 : rs.st.ended = true := hend
          have hfe := h.finals_ended hend2
          rw [hq, countChunk_cons_eager] at hfe
          show countFinals (rs.sent ++
            [((send_activity {rs.st with queue := rest} a (trans rs.sent.length)).2,
              trans rs.sent.length)]) + countChunk rest = 1
          rw [countFinals_append, hnf]
          simpa using hfe
        · have hp := h.seqs
          dsimp only [assignedSeqs] at hp ⊢
          rw [hq, queueSeqs_cons] at hp
          rw [sentSeqs_append_one, wire_stream_sequence, List.append_assoc]
          exact hp
        · intro p hp
          rcases List.mem_append.mp hp with h1 | h1
          · exact h.sent_excl p h1
          · have hpe : p
                = ((send_activity {rs.st with queue := rest} a (trans rs.sent.length)).2,
                   trans rs.sent.length) := by simpa using h1
            subst hpe
            dsimp only
            exact wire_excl _ a _ ha.2.1 ha.2.2
        · intro hend p hp
          have hend2 : rs.st.ended = false := hend
          rcases List.mem_append.mp hp with h1 | h1
          · exact h.sent_undec hend2 p h1
          · have hpe : p
                = ((send_activity {rs.st with queue := rest} a (trans rs.sent.length)).2,
                   trans rs.sent.length) := by simpa using h1
            subst hpe
            dsimp only
            refine ⟨?_, ?_, ?_⟩
            · refine (wire_fb_enabled_not_ended ?_ a ?_ ?_).trans ha.2.1
              exact hend2
            · refine (wire_fb_type_not_ended ?_ a ?_ ?_).trans ha.2.2
              exact hend2
            · refine wire_no_ailabel_not_ended ?_ a ?_ ?_
              exact hend2
        · intro p hp hfin
          rcases List.mem_append.mp hp with h1 | h1
          · exact h.sent_final_noseq p h1 hfin
          · have hpe : p
                = ((send_activity {rs.st with queue := rest} a (trans rs.sent.length)).2,
                   trans rs.sent.length) := by simpa using h1
            subst hpe
            rw [wire_stream_type, ha.1] at hfin
            exact absurd hfin (by decide)
        · intro p hp hfin
          rcases List.mem_append.mp hp with h1 | h1
          · exact h.sent_final_msg p h1 hfin
          · have hpe : p
                = ((send_activity {rs.st with queue := rest} a (trans rs.sent.length)).2,
                   trans rs.sent.length) := by simpa using h1
            subst hpe
            rw [wire_stream_type, ha.1] at hfin
            exact absurd hfin (by decide)
      | formatNextChunk =>
        have hc2 := h.chunk_count
        rw [hq, countChunk_cons_chunk] at hc2
        have hcq : rs.st.chunkQueued = true := by
          cases hcc : rs.st.chunkQueued
          · rw [hcc] at hc2; simp at hc2
          · rfl
        have hc2b : countChunk rest + 1 = 1 := by simpa [hcq] using hc2
        have hr0 : countChunk rest = 0 := by omega
        cases he : rs.st.ended with
        | true =>
          rw [step_drain_chunk trans rs rest hq,
            format_next_chunk_ended {rs.st with queue := rest} he]
          dsimp only
          rw [send_activity_fst]
          have hfin : isFinalSend
              ((send_activity {rs.st with queue := rest, chunkQueued := false}
                  { type := ActivityType.message, text := rs.st.message,
                    attachments := rs.st.attachments,
                    channel_data := { stream_type := StreamType.final } }
                  (trans rs.sent.length)).2,
                trans rs.sent.length) = true := by
            simp [isFinalSend, wire_stream_type]
          constructor
          · exact h.nseq_pos
          · exact hr0
          · intro b hb
            exact h.q_eager b (by rw [hq]; exact List.mem_cons_of_mem _ hb)
          · intro hend
            have hx : rs.st.ended = false := hend
            rw [he] at hx
            exact Bool.noConfusion hx
          · intro _
            have hfe := h.finals_ended he
            rw [hq, countChunk_cons_chunk, hr0] at hfe
            show countFinals (rs.sent ++
              [((send_activity {rs.st with queue := rest, chunkQueued := false}
                  { type := ActivityType.message, text := rs.st.message,
                    attachments := rs.st.attachments,
                    channel_data := { stream_type := StreamType.final } }
                  (trans rs.sent.length)).2,
                trans rs.sent.length)]) + countChunk rest = 1
            rw [countFinals_append, hfin]
            show countFinals rs.sent + 1 + countChunk rest = 1
            omega
          · have hp := h.seqs
            dsimp only [assignedSeqs] at hp ⊢
            rw [hq, queueSeqs_cons] at hp
            rw [sentSeqs_append_one, wire_stream_sequence]
            simp only [jobSeq, Option.toList, List.nil_append, List.append_nil] at hp ⊢
            exact hp
          · intro p hp
            rcases List.mem_append.mp hp with h1 | h1
            · exact h.sent_excl p h1
            · have hpe := List.mem_singleton.mp h1
              subst hpe
              dsimp only
              refine wire_excl ?_ ?_ ?_ ?_ ?_ <;> rfl
          · intro hend
            have hx : rs.st.ended = false := hend
            rw [he] at hx
            exact Bool.noConfusion hx
          · intro p hp hfin2
            rcases List.mem_append.mp hp with h1 | h1
            · exact h.sent_final_noseq p h1 hfin2
            · have hpe := List.mem_singleton.mp h1
              subst hpe
              rw [wire_stream_sequence]
          · intro p hp hfin2
            rcases List.mem_append.mp hp with h1 | h1
            · exact h.sent_final_msg p h1 hfin2
            · have hpe := List.mem_singleton.mp h1
              subst hpe
              rw [wire_type]
        | false =>
          rw [step_drain_chunk trans rs rest hq,
            format_next_chunk_not_ended {rs.st with queue := rest} he]
          dsimp only
          rw [send_activity_fst]
          have hnf : isFinalSend
              ((send_activity
                  {rs.st with
                    queue := rest, chunkQueued := false,
                    nextSequence := rs.st.nextSequence + 1}
                  { type := ActivityType.typing, text := rs.st.message,
                    channel_data :=
                      { stream_type := StreamType.streaming,
                        stream_sequence := some rs.st.nextSequence } }
                  (trans rs.sent.length)).2,
                trans rs.sent.length) = false := by
            simp [isFinalSend, wire_stream_type]
          constructor
          · show 1 ≤ rs.st.nextSequence + 1
            omega
          · exact hr0
          · intro b hb
            exact h.q_eager b (by rw [hq]; exact List.mem_cons_of_mem _ hb)
          · intro hend
            show countFinals (rs.sent ++
              [((send_activity
                  {rs.st with
                    queue := rest, chunkQueued := false,
                    nextSequence := rs.st.nextSequence + 1}
                  { type := ActivityType.typing, text := rs.st.message,
                    channel_data :=
                      { stream_type := StreamType.streaming,
                        stream_sequence := some rs.st.nextSequence } }
                  (trans rs.sent.length)).2,
                trans rs.sent.length)]) = 0
            rw [countFinals_append, hnf]
            simp [h.finals_not_ended he]
          · intro hend
            have hx : rs.st.ended = true := hend
            rw [he] at hx
            exact Bool.noConfusion hx
          · have hp := h.seqs
            dsimp only [assignedSeqs] at hp ⊢
            rw [hq, queueSeqs_cons] at hp
            simp only [jobSeq, Option.toList, List.nil_append] at hp
            rw [sentSeqs_append_one, wire_stream_sequence]
            have h1 : rs.st.nextSequence + 1 - 1 = (rs.st.nextSequence - 1) + 1 := by
              have := h.nseq_pos; omega
            rw [h1, List.range'_concat]
            have h2 : 1 + 1 * (rs.st.nextSequence - 1) = rs.st.nextSequence := by
              have := h.nseq_pos; omega
            rw [h2]
            exact perm_snoc_shift _ _ _ _ hp
          · intro p hp
            rcases List.mem_append.mp hp with h1 | h1
            · exact h.sent_excl p h1
            · have hpe := List.mem_singleton.mp h1
              subst hpe
              dsimp only
              refine wire_excl ?_ ?_ ?_ ?_ ?_ <;> rfl
          · intro hend p hp
            have hend2 : rs.st.ended = false := he
            rcases List.mem_append.mp hp with h1 | h1
            · exact h.sent_undec hend2 p h1
            · have hpe := List.mem_singleton.mp h1
              subst hpe
              dsimp only
              refine ⟨?_, ?_, ?_⟩
              · refine (wire_fb_enabled_not_ended ?_ ?_ ?_ ?_).trans rfl
                exact hend2
              · refine (wire_fb_type_not_ended ?_ ?_ ?_ ?_).trans rfl
                exact hend2
              · refine wire_no_ailabel_not_ended ?_ ?_ ?_ ?_
                exact hend2
          · intro p hp hfin2
            rcases List.mem_append.mp hp with h1 | h1
            · exact h.sent_final_noseq p h1 hfin2
            · have hpe := List.mem_singleton.mp h1
              subst hpe
              rw [wire_stream_type] at hfin2
              simp at hfin2
          · intro p hp hfin2
            rcases List.mem_append.mp hp with h1 | h1
            · exact h.sent_final_msg p h1 hfin2
            · have hpe := List.mem_singleton.mp h1
              subst hpe
              rw [wire_stream_type] at hfin2
              simp at hfin2

theorem engineInv_fold (trans : Transport) (steps : List PStep) :
    ∀ rs, EngineInv rs → EngineInv (steps.foldl (step trans) rs) := by
  induction steps with
  | nil => intro rs h; exact h
  | cons e rest ih => intro rs h; exact ih _ (engineInv_step trans rs e h)

theorem engineInv_run (trans : Transport) (steps : List PStep) :
    EngineInv (run trans steps) :=
  engineInv_fold trans steps initRun engineInv_init

theorem run_append (trans : Transport) (l1 l2 : List PStep) :
    run trans (l1 ++ l2) = l2.foldl (step trans) (run trans l1) := by
  simp [run, List.foldl_append]

theorem queue_next_chunk_ended (s : StreamState) :
    (queue_next_chunk s).ended = s.ended := by
  unfold queue_next_chunk queue_activity; split <;> rfl

theorem end_stream_ok (s s1 : StreamState) (h : end_stream s = Except.ok s1) :
    s.ended = false ∧ s1.ended = true := by
  unfold end_stream at h
  cases hx : s.ended with
  | true =>
    rw [hx] at h
    simp at h
  | false =>
    rw [hx] at h
    have h2 : Except.ok (ε := StreamErr) (queue_next_chunk {s with ended := true})
        = Except.ok s1 := h
    have h3 : queue_next_chunk {s with ended := true} = s1 := by
      injection h2
    refine ⟨rfl, ?_⟩
    rw [← h3, queue_next_chunk_ended]

theorem materialize_chunk_stream_type (s : StreamState) (h : s.ended = false) :
    (materialize s Job.formatNextChunk).2.channel_data.stream_type
      = StreamType.streaming := by
  show (format_next_chunk s).2.channel_data.stream_type = _
  rw [format_next_chunk_not_ended s h]

theorem materialize_chunk_text (s : StreamState) (h : s.ended = false) :
    (materialize s Job.formatNextChunk).2.text = s.message := by
  show (format_next_chunk s).2.text = _
  rw [format_next_chunk_not_ended s h]

theorem format_next_chunk_streamId (s : StreamState) :
    (format_next_chunk s).1.streamId = s.streamId := by
  simp only [format_next_chunk]; split <;> rfl

theorem newStreamId_of_ne (s : StreamState) (out : Outcome) (h : s.streamId ≠ "") :
    newStreamId s out = s.streamId := by
  cases out with
  | ok r =>
    cases r with
    | none => rfl
    | some rid =>
      show (if s.streamId = "" then rid else s.streamId) = s.streamId
      rw [if_neg h]
  | err => rfl

theorem set_citations_streamId (s : StreamState) (cs : List Citation) :
    (set_citations s cs).streamId = s.streamId := by
  unfold set_citations; split <;> rfl

theorem step_streamId_mono (trans : Transport) (rs : RunState) (e : PStep)
    (h : rs.st.streamId ≠ "") :
    (step trans rs e).st.streamId = rs.st.streamId ∧
    ∃ ext, (step trans rs e).sent = rs.sent ++ ext ∧
      ∀ p ∈ ext, p.1.channel_data.stream_id = some rs.st.streamId := by
  cases e with
  | informative t =>
    cases he : rs.st.ended with
    | true =>
      rw [step_informative_ended trans rs t he]
      exact ⟨rfl, [], by simp, by simp⟩
    | false =>
      rw [step_informative trans rs t he]
      exact ⟨rfl, [], by simp, by simp⟩
  | chunk t c =>
    cases he : rs.st.ended with
    | true =>
      rw [step_chunk_ended trans rs t c he]
      exact ⟨rfl, [], by simp, by simp⟩
    | false =>
      cases hc : rs.st.chunkQueued with
      | true =>
        rw [step_chunk_pending trans rs t c he hc]
        exact ⟨rfl, [], by simp, by simp⟩
      | false =>
        rw [step_chunk_fresh trans rs t c he hc]
        exact ⟨rfl, [], by simp, by simp⟩
  | endStream =>
    cases he : rs.st.ended with
    | true =>
      rw [step_end_ended trans rs he]
      exact ⟨rfl, [], by simp, by simp⟩
    | false =>
      cases hc : rs.st.chunkQueued with
      | true =>
        rw [step_end_pending trans rs he hc]
        exact ⟨rfl, [], by simp, by simp⟩
      | false =>
        rw [step_end_fresh trans rs he hc]
        exact ⟨rfl, [], by simp, by simp⟩
  | setCitations cs =>
    exact ⟨set_citations_streamId rs.st cs, [], by simp [step], by simp⟩
  | setAttachments l => exact ⟨rfl, [], by simp [step], by simp⟩
  | setFeedbackLoop b => exact ⟨rfl, [], by simp [step], by simp⟩
  | setFeedbackLoopType ty => exact ⟨rfl, [], by simp [step], by simp⟩
  | setSensitivityLabel l => exact ⟨rfl, [], by simp [step], by simp⟩
  | setGeneratedByAiLabel b => exact ⟨rfl, [], by simp [step], by simp⟩
  | drainOne =>
    cases hq : rs.st.queue with
    | nil =>
      rw [step_drain_nil trans rs hq]
      exact ⟨rfl, [], by simp, by simp⟩
    | cons j rest =>
      cases j with
      | eager a =>
        rw [step_drain_eager trans rs a rest hq]
        refine ⟨?_,
          [((send_activity {rs.st with queue := rest} a (trans rs.sent.length)).2,
            trans rs.sent.length)], rfl, ?_⟩
        · show newStreamId {rs.st with queue := rest} (trans rs.sent.length)
            = rs.st.streamId
          exact newStreamId_of_ne _ _ h
        · intro p hp
          have hpe := List.mem_singleton.mp hp
          subst hpe
          exact wire_stamped {rs.st with queue := rest} a (trans rs.sent.length) h
      | formatNextChunk =>
        rw [step_drain_chunk trans rs rest hq]
        have hfs : (format_next_chunk {rs.st with queue := rest}).1.streamId
            = rs.st.streamId := format_next_chunk_streamId _
        refine ⟨?_,
          [((send_activity (format_next_chunk {rs.st with queue := rest}).1
              (format_next_chunk {rs.st with queue := rest}).2
              (trans rs.sent.length)).2,
            trans rs.sent.length)], rfl, ?_⟩
        · show newStreamId (format_next_chunk {rs.st with queue := rest}).1
            (trans rs.sent.length) = rs.st.streamId
          rw [newStreamId_of_ne _ _ (by rw [hfs]; exact h), hfs]
        · intro p hp
          have hpe := List.mem_singleton.mp hp
          subst hpe
          have hw := wire_stamped (format_next_chunk {rs.st with queue := rest}).1
            (format_next_chunk {rs.st with queue := rest}).2
            (trans rs.sent.length) (by rw [hfs]; exact h)
          rw [hfs] at hw
          exact hw

theorem c5_aux (trans : Transport) (more : List PStep) :
    ∀ rs : RunState, rs.st.streamId ≠ "" →
    (more.foldl (step trans) rs).st.streamId = rs.st.streamId ∧
    ∃ ext, (more.foldl (step trans) rs).sent = rs.sent ++ ext ∧
      ∀ p ∈ ext, p.1.channel_data.stream_id = some rs.st.streamId := by
  induction more with
  | nil => intro rs h; exact ⟨rfl, [], by simp, by simp⟩
  | cons e rest ih =>
    intro rs h
    obtain ⟨hid, ext1, hs1, hp1⟩ := step_streamId_mono trans rs e h
    obtain ⟨hid2, ext2, hs2, hp2⟩ := ih (step trans rs e) (by rw [hid]; exact h)
    refine ⟨by rw [List.foldl_cons, hid2, hid], ext1 ++ ext2, ?_, ?_⟩
    · rw [List.foldl_cons, hs2, hs1, List.append_assoc]
    · intro p hp
      rcases List.mem_append.mp hp with h1 | h1
      · exact hp1 p h1
      · have hx := hp2 p h1
        rw [hid] at hx
        exact hx

theorem queue_text_chunk_pending (s : StreamState) (t : String)
    (c : Option (List Citation)) (he : s.ended = false) (hc : s.chunkQueued = true) :
    queue_text_chunk s t c
      = Except.ok {s with message := format_citations_response (s.message ++ t)} := by
  simp [queue_text_chunk, queue_next_chunk, he, hc]

theorem queue_text_chunk_fresh (s : StreamState) (t : String)
    (c : Option (List Citation)) (he : s.ended = false) (hc : s.chunkQueued = false) :
    queue_text_chunk s t c
      = Except.ok {s with
          message := format_citations_response (s.message ++ t),
          chunkQueued := true,
          queue := s.queue ++ [Job.formatNextChunk]} := by
  simp [queue_text_chunk, queue_next_chunk, queue_activity, he, hc]

theorem applyChunks_cons (s : StreamState) (t : String) (ts : List String) :
    applyChunks s (t :: ts) = applyChunks (chunkStep s t) ts := rfl

theorem chunkStep_pending (s : StreamState) (t : String)
    (he : s.ended = false) (hc : s.chunkQueued = true) :
    chunkStep s t = {s with message := format_citations_response (s.message ++ t)} := by
  unfold chunkStep
  rw [queue_text_chunk_pending s t none he hc]

theorem chunkStep_fresh (s : StreamState) (t : String)
    (he : s.ended = false) (hc : s.chunkQueued = false) :
    chunkStep s t
      = {s with
          message := format_citations_response (s.message ++ t),
          chunkQueued := true,
          queue := s.queue ++ [Job.formatNextChunk]} := by
  unfold chunkStep
  rw [queue_text_chunk_fresh s t none he hc]

theorem applyChunks_pending (ts : List String) :
    ∀ s : StreamState, s.ended = false → s.chunkQueued = true →
    applyChunks s ts
      = {s with
          message := ts.foldl
            (fun m t => format_citations_response (m ++ t)) s.message} := by
  induction ts with
  | nil => intro s _ _; rfl
  | cons t ts ih =>
    intro s he hc
    rw [applyChunks_cons, chunkStep_pending s t he hc]
    rw [ih {s with message := format_citations_response (s.message ++ t)} he hc]
    rfl

theorem applyChunks_spec (s : StreamState) (ts : List String)
    (he : s.ended = false) (hc : s.chunkQueued = false) (hne : ts ≠ []) :
    applyChunks s ts
      = {s with
          message := ts.foldl
            (fun m t => format_citations_response (m ++ t)) s.message,
          chunkQueued := true,
          queue := s.queue ++ [Job.formatNextChunk]} := by
  cases ts with
  | nil => exact absurd rfl hne
  | cons t ts =>
    rw [applyChunks_cons, chunkStep_fresh s t he hc]
    rw [applyChunks_pending ts
      {s with
        message := format_citations_response (s.message ++ t),
        chunkQueued := true,
        queue := s.queue ++ [Job.formatNextChunk]} he rfl]
    rfl

theorem mkClientCitations_length (k : Nat) (cs : List Citation) :
    (mkClientCitations k cs).length = cs.length := by
  induction cs generalizing k with
  | nil => rfl
  | cons c cs ih => simp [mkClientCitations, ih]

/-- C1: over every modelled schedule of producer calls and drain iterations, at most one
activity whose channel data carries stream_type final is ever handed to the transport;
end_stream flips the ended flag from false to true exactly when it succeeds; and once
the stream has ended and the backlog has fully drained, exactly one final activity has
been sent. -/
theorem c1_exactly_one_final (trans : Transport) (steps : List PStep) :
    countFinals (run trans steps).sent ≤ 1 ∧
    (∀ s s1, end_stream s = Except.ok s1 → s.ended = false ∧ s1.ended = true) ∧
    ((run trans steps).st.ended = true → (run trans steps).st.queue = [] →
      countFinals (run trans steps).sent = 1) := by
  have hI := engineInv_run trans steps
  refine ⟨?_, end_stream_ok, ?_⟩
  · cases he : (run trans steps).st.ended with
    | false =>
      rw [hI.finals_not_ended he]
      omega
    | true =>
      have := hI.finals_ended he
      omega
  · intro he hq
    have hx := hI.finals_ended he
    rw [hq] at hx
    simpa [countChunk] using hx

theorem c1_exactly_one_final_witness :
    (run transOk [PStep.endStream, PStep.drainOne]).st.ended = true ∧
    (run transOk [PStep.endStream, PStep.drainOne]).st.queue = [] ∧
    countFinals (run transOk [PStep.endStream, PStep.drainOne]).sent = 1 :=
  ⟨by decide, by decide,
    (c1_exactly_one_final transOk [PStep.endStream, PStep.drainOne]).2.2
      (by decide) (by decide)⟩

/-- C2 counterexample: in the schedule where a text chunk is queued and then an
informative update is queued before the drain task runs, the activities are sent with
sequence numbers 2 then 1 — the sequence numbers taken in send order do not strictly
increase by 1, refuting the claim as stated. -/
theorem c2_sent_order_counterexample :
    sentSeqs (run transOk c2steps).sent = [2, 1] ∧
    ¬ List.Chain' (fun a b => b = a + 1) (sentSeqs (run transOk c2steps).sent) := by
  refine ⟨by decide, ?_⟩
  intro hch
  rw [show sentSeqs (run transOk c2steps).sent = [2, 1] from by decide] at hch
  simp [List.chain'_cons] at hch

/-- C2 amended: every assignment of a sequence number (at enqueue time for informative
updates, at dequeue time for streaming chunks) takes the current counter and increments
it by 1, so the sequence numbers assigned so far — those on sent activities together
with those on still-queued jobs — are exactly 1..nextSequence-1, pairwise distinct; no
sequence number is ever attached to two activities; and the final activity carries no
sequence number.  (Send order need not be monotonic when an informative update is
enqueued while a chunk flush is pending.) -/
theorem c2_sequence_numbers_amended (trans : Transport) (steps : List PStep) :
    List.Perm (assignedSeqs (run trans steps))
      (List.range' 1 ((run trans steps).st.nextSequence - 1)) ∧
    (assignedSeqs (run trans steps)).Nodup ∧
    (sentSeqs (run trans steps).sent).Nodup ∧
    (∀ p ∈ (run trans steps).sent,
      p.1.channel_data.stream_type = StreamType.final →
      p.1.channel_data.stream_sequence = none) := by
  have hI := engineInv_run trans steps
  have hnd : (assignedSeqs (run trans steps)).Nodup :=
    hI.seqs.nodup_iff.mpr (List.nodup_range' 1 _)
  refine ⟨hI.seqs, hnd, ?_, hI.sent_final_noseq⟩
  exact List.Nodup.sublist (List.sublist_append_left _ _) hnd

theorem c2_sequence_numbers_amended_witness :
    (assignedSeqs (run transOk c2steps)).Nodup ∧
    sentSeqs (run transOk c2steps).sent = [2, 1] :=
  ⟨(c2_sequence_numbers_amended transOk c2steps).2.1, by decide⟩

/-- C3: any burst of at least one queue_text_chunk call on a stream with no pending
flush and an empty backlog leaves exactly one queued job — the coalesced
format-next-chunk job — and materializing it at dequeue time yields a streaming
activity whose text is the accumulated message reflecting every appended chunk. -/
theorem c3_chunk_coalescing (s : StreamState) (ts : List String)
    (h1 : s.ended = false) (h2 : s.chunkQueued = false) (h3 : s.queue = [])
    (h4 : ts ≠ []) :
    (applyChunks s ts).queue = [Job.formatNextChunk] ∧
    countChunk (applyChunks s ts).queue = 1 ∧
    (applyChunks s ts).message
      = ts.foldl (fun m t => format_citations_response (m ++ t)) s.message ∧
    (materialize (applyChunks s ts) Job.formatNextChunk).2.channel_data.stream_type
      = StreamType.streaming ∧
    (materialize (applyChunks s ts) Job.formatNextChunk).2.text
      = (applyChunks s ts).message := by
  rw [applyChunks_spec s ts h1 h2 h4, h3]
  refine ⟨rfl, by simp [countChunk, isChunkJob], rfl, ?_, ?_⟩
  · refine materialize_chunk_stream_type _ ?_
    exact h1
  · refine materialize_chunk_text _ ?_
    exact h1

theorem c3_chunk_coalescing_witness :
    (applyChunks initStream ["Hello", " wor", "ld"]).queue = [Job.formatNextChunk] ∧
    countChunk (applyChunks initStream ["Hello", " wor", "ld"]).queue = 1 ∧
    (applyChunks initStream ["Hello", " wor", "ld"]).message
      = ["Hello", " wor", "ld"].foldl
          (fun m t => format_citations_response (m ++ t)) initStream.message ∧
    (materialize (applyChunks initStream ["Hello", " wor", "ld"])
        Job.formatNextChunk).2.channel_data.stream_type = StreamType.streaming ∧
    (materialize (applyChunks initStream ["Hello", " wor", "ld"])
        Job.formatNextChunk).2.text
      = (applyChunks initStream ["Hello", " wor", "ld"]).message :=
  c3_chunk_coalescing initStream ["Hello", " wor", "ld"] rfl rfl rfl (by decide)

/-- C4: once the ended flag is set, queue_informative_update, queue_text_chunk and a
second end_stream all fail synchronously with the stream-already-ended error, and the
corresponding trace steps leave the whole engine state (queue, counter, message, sent
log) unchanged; a successful end_stream is what sets the flag. -/
theorem c4_mutations_after_end (s : StreamState) (t : String)
    (c : Option (List Citation)) (trans : Transport) (rs : RunState)
    (h : s.ended = true) (hrs : rs.st = s) :
    queue_informative_update s t = Except.error StreamErr.streamAlreadyEnded ∧
    queue_text_chunk s t c = Except.error StreamErr.streamAlreadyEnded ∧
    end_stream s = Except.error StreamErr.streamAlreadyEnded ∧
    step trans rs (PStep.informative t) = rs ∧
    step trans rs (PStep.chunk t c) = rs ∧
    step trans rs PStep.endStream = rs ∧
    (∀ s0 s1, end_stream s0 = Except.ok s1 → s1.ended = true) := by
  subst hrs
  refine ⟨?_, ?_, ?_, ?_, ?_, ?_, ?_⟩
  · simp [queue_informative_update, h]
  · simp [queue_text_chunk, h]
  · simp [end_stream, h]
  · exact step_informative_ended trans rs t h
  · exact step_chunk_ended trans rs t c h
  · exact step_end_ended trans rs h
  · intro s0 s1 hok
    exact (end_stream_ok s0 s1 hok).2

theorem c4_mutations_after_end_witness :
    queue_informative_update endedRun.st "x"
      = Except.error StreamErr.streamAlreadyEnded ∧
    queue_text_chunk endedRun.st "x" none
      = Except.error StreamErr.streamAlreadyEnded ∧
    end_stream endedRun.st = Except.error StreamErr.streamAlreadyEnded ∧
    step transOk endedRun (PStep.informative "x") = endedRun ∧
    step transOk endedRun (PStep.chunk "x" none) = endedRun ∧
    step transOk endedRun PStep.endStream = endedRun := by
  have hw := c4_mutations_after_end endedRun.st "x" none transOk endedRun
    (by decide) rfl
  exact ⟨hw.1, hw.2.1, hw.2.2.1, hw.2.2.2.1, hw.2.2.2.2.1, hw.2.2.2.2.2.1⟩

/-- C5: once a non-empty stream identifier has been recorded, it is never overwritten
for the rest of the exchange, every subsequently sent activity carries it in its
channel metadata, and at the function level send_activity records the id returned by
the first successful send only while none is recorded yet. -/
theorem c5_stream_id (trans : Transport) (steps more : List PStep)
    (h : (run trans steps).st.streamId ≠ "") :
    (run trans (steps ++ more)).st.streamId = (run trans steps).st.streamId ∧
    (∃ ext, (run trans (steps ++ more)).sent = (run trans steps).sent ++ ext ∧
      ∀ p ∈ ext, p.1.channel_data.stream_id = some ((run trans steps).st.streamId)) ∧
    (∀ s a rid, (send_activity s a (Outcome.ok (some rid))).1.streamId
      = if s.streamId = "" then rid else s.streamId) := by
  have hx := c5_aux trans more (run trans steps) h
  refine ⟨?_, ?_, ?_⟩
  · rw [run_append]
    exact hx.1
  · rw [run_append]
    exact hx.2
  · intro s a rid
    rfl

theorem c5_stream_id_witness :
    (run transOk w5pre).st.streamId = "stream-id-1" ∧
    (run transOk (w5pre ++ w5more)).st.streamId = (run transOk w5pre).st.streamId :=
  ⟨by decide, (c5_stream_id transOk w5pre w5more (by decide)).1⟩

/-- C6: on a non-final send with registered citations, the wire activity carries exactly
one AIEntity holding precisely the citations whose position marker occurs in the
accumulated text (the used-citations filter); on the final send with the
generated-by-AI label enabled, it carries exactly one AIEntity holding the full
citation list together with the sensitivity label. -/
theorem c6_citation_filtering (s : StreamState) (a : Activity) (out : Outcome) :
    (s.ended = false → s.citations ≠ [] →
      aiEntities (send_activity s a out).2
        = [{ additional_type := [],
             citation := s.citations.filter
               (fun c => citationReferenced s.message c.position),
             usage_info := none }]) ∧
    (s.ended = true → s.enableGeneratedByAiLabel = true →
      aiEntities (send_activity s a out).2
        = [{ additional_type := ["AIGeneratedContent"],
             citation := s.citations,
             usage_info := s.sensitivityLabel }]) := by
  constructor
  · intro he hcit
    rw [send_activity_snd, decorateFinal_not_ended _ _ he]
    simp [aiEntities, attachUsedCitations_entities, attachStreamEntity_entities,
      hcit, he, get_used_citations]
  · intro he hlab
    rw [send_activity_snd]
    simp [aiEntities, decorateFinal_entities, attachUsedCitations_entities,
      attachStreamEntity_entities, he, hlab]

theorem c6_citation_filtering_witness :
    aiEntities (send_activity s6a act6 (Outcome.ok none)).2
      = [{ additional_type := [], citation := [cit2], usage_info := none }] ∧
    aiEntities (send_activity s6b act6 (Outcome.ok none)).2
      = [{ additional_type := ["AIGeneratedContent"],
           citation := [cit1, cit2, cit3],
           usage_info := some { label := "conf" } }] :=
  ⟨((c6_citation_filtering s6a act6 (Outcome.ok none)).1 rfl (by decide)).trans
      (by decide),
   ((c6_citation_filtering s6b act6 (Outcome.ok none)).2 rfl rfl).trans (by decide)⟩

/-- C7 counterexample: queue an informative update, then call end_stream before the
drain task runs; the informative (non-final) activity is then sent while the ended flag
is already true, so send_activity stamps feedback_loop_enabled onto it — a decoration
on a sent activity that is not the final message, refuting the claim as stated. -/
theorem c7_decoration_counterexample :
    ((run transOk c7steps).sent.map
      (fun p => (p.1.channel_data.stream_type, p.1.channel_data.feedback_loop_enabled)))
      = [(StreamType.informative, some true)] := by decide

/-- C7 amended: feedback-loop and AI-label decorations appear only on activities sent
after the stream has ended — every activity sent while the stream is not yet ended is
undecorated — and on every sent activity the feedback-loop-enabled flag and the
feedback-loop-type field are mutually exclusive (the type is attached only when the
enabled flag is not set). -/
theorem c7_decorations_amended (trans : Transport) (pre post : List PStep)
    (h : (run trans pre).st.ended = false) :
    (∀ p ∈ (run trans pre).sent, undecorated p.1) ∧
    (∀ p ∈ (run trans (pre ++ post)).sent,
      ¬(p.1.channel_data.feedback_loop_enabled.isSome
        ∧ p.1.channel_data.feedback_loop_type.isSome)) :=
  ⟨(engineInv_run trans pre).sent_undec h,
   (engineInv_run trans (pre ++ post)).sent_excl⟩

theorem c7_decorations_amended_witness :
    (run transOk w7pre).st.ended = false ∧
    (∀ p ∈ (run transOk w7pre).sent, undecorated p.1) :=
  ⟨by decide, (c7_decorations_amended transOk w7pre w7post (by decide)).1⟩

theorem drain_run_cons_ok (trans : Transport) (k : Nat) (j0 : Job)
    (rest : List Job) (s : StreamState) (r : Option String)
    (ho : trans k = Outcome.ok r) :
    drain_run trans k (j0 :: rest) s
      = ((drain_run trans (k + 1) rest
            (send_activity (materialize s j0).1 (materialize s j0).2
              (Outcome.ok r)).1).1,
         ((send_activity (materialize s j0).1 (materialize s j0).2
              (Outcome.ok r)).2, Outcome.ok r) ::
         (drain_run trans (k + 1) rest
            (send_activity (materialize s j0).1 (materialize s j0).2
              (Outcome.ok r)).1).2) := by
  simp only [drain_run, ho]

theorem drain_run_stops (trans : Transport) :
    ∀ (pre : List Job) (k : Nat) (s : StreamState) (j : Job) (suf : List Job),
    (∀ i, i < pre.length → trans (k + i) ≠ Outcome.err) →
    trans (k + pre.length) = Outcome.err →
    (drain_run trans k (pre ++ j :: suf) s).2.length = pre.length + 1 ∧
    (drain_run trans k (pre ++ j :: suf) s).1.queue = suf := by
  intro pre
  induction pre with
  | nil =>
    intro k s j suf _ herr
    have herr0 : trans k = Outcome.err := by simpa using herr
    constructor
    · show (drain_run trans k ([] ++ j :: suf) s).2.length = [].length + 1
      simp [drain_run, herr0]
    · show (drain_run trans k ([] ++ j :: suf) s).1.queue = suf
      simp [drain_run, herr0]
  | cons j0 pre ih =>
    intro k s j suf hok herr
    have h0 : trans k ≠ Outcome.err := by
      have := hok 0 (by simp)
      simpa using this
    cases ho : trans k with
    | err => exact absurd ho h0
    | ok r =>
      have hok2 : ∀ i, i < pre.length → trans (k + 1 + i) ≠ Outcome.err := by
        intro i hi
        have hx := hok (i + 1) (by simpa using Nat.succ_lt_succ hi)
        have harith : k + (i + 1) = k + 1 + i := by omega
        rw [harith] at hx
        exact hx
      have herr2 : trans (k + 1 + pre.length) = Outcome.err := by
        have harith : k + 1 + pre.length = k + (j0 :: pre).length := by
          simp [List.length_cons]
          omega
        rw [harith]
        exact herr
      have ihh := ih (k + 1)
        (send_activity (materialize s j0).1 (materialize s j0).2 (Outcome.ok r)).1
        j suf hok2 herr2
      have hcons := drain_run_cons_ok trans k j0 (pre ++ j :: suf) s r ho
      constructor
      · show (drain_run trans k (j0 :: (pre ++ j :: suf)) s).2.length
          = (j0 :: pre).length + 1
        rw [hcons]
        simp only [List.length_cons]
        rw [ihh.1]
      · show (drain_run trans k (j0 :: (pre ++ j :: suf)) s).1.queue = suf
        rw [hcons]
        exact ihh.2

/-- C8: if the transport fails on the send at offset pre.length of a drain run, the
drain attempts exactly the jobs up to and including the failing one (pre.length + 1
send attempts) and stops: the jobs queued behind the failed job are never materialized
or sent during that drain and remain in the queue. -/
theorem c8_drain_aborts_on_failure (trans : Transport) (k : Nat) (s : StreamState)
    (pre suf : List Job) (j : Job) (hjobs : s.queue = pre ++ j :: suf)
    (hok : ∀ i, i < pre.length → trans (k + i) ≠ Outcome.err)
    (herr : trans (k + pre.length) = Outcome.err) :
    (drain_queue trans k s).2.length = pre.length + 1 ∧
    (drain_queue trans k s).1.queue = suf := by
  unfold drain_queue
  rw [hjobs]
  exact drain_run_stops trans pre k _ j suf hok herr

theorem c8_drain_aborts_on_failure_witness :
    (drain_queue transErrAt1 0 w8state).2.length = 2 ∧
    (drain_queue transErrAt1 0 w8state).1.queue = [jobA] :=
  c8_drain_aborts_on_failure transErrAt1 0 w8state [jobA] [jobA] Job.formatNextChunk
    rfl (by decide) (by decide)

/-- C9 evidence (code bug): enqueuing a job through instance 1 makes the job visible in
instance 2's queue, because _queue is a mutable class-level default shared by both
instances; the claim (and the spec, which flags this as a latent defect) requires the
second instance's containers to stay unchanged and empty. -/
theorem c9_shared_class_default_queue :
    readQueue2 (appendQueue1 freshTwoInstances Job.formatNextChunk)
      = [Job.formatNextChunk] ∧
    readQueue2 freshTwoInstances = [] := by
  constructor
  · rfl
  · rfl

/-- C10: the optional citations argument of queue_text_chunk is ignored — for every
state, chunk text and citation list the call is literally equal to the call with no
citations, and so is the whole trace step built on it; citations enter the engine state
only through set_citations, which appends one client citation per input. -/
theorem c10_chunk_citations_argument_unused (s : StreamState) (t : String)
    (c : Option (List Citation)) (trans : Transport) (rs : RunState)
    (cs : List Citation) (hcs : cs ≠ []) :
    queue_text_chunk s t c = queue_text_chunk s t none ∧
    step trans rs (PStep.chunk t c) = step trans rs (PStep.chunk t none) ∧
    (set_citations s cs).citations.length = s.citations.length + cs.length := by
  refine ⟨rfl, rfl, ?_⟩
  unfold set_citations
  rw [if_pos (List.length_pos.mpr hcs)]
  simp [mkClientCitations_length]

theorem c10_chunk_citations_argument_unused_witness :
    queue_text_chunk initStream "hi" (some [{ title := none, content := "c" }])
      = queue_text_chunk initStream "hi" none ∧
    (set_citations initStream [{ title := none, content := "c" }]).citations.length
      = initStream.citations.length + 1 := by
  have hw := c10_chunk_citations_argument_unused initStream "hi"
    (some [{ title := none, content := "c" }]) transOk initRun
    [{ title := none, content := "c" }] (by decide)
  exact ⟨hw.1, hw.2.2⟩
